import Mathlib

/-!
Shallow embedding of `src/statistical_testing_cascade_function_updated.py`
(the single function `testingCcascade`).

Modelling decisions:
* Sample elements, the significance level `alpha` and all p-values are
  rationals (`ℚ`); the spec treats them as reals and the cascade only
  compares them, so any linearly ordered field works.
* The scipy statistical primitives (Shapiro-Wilk, Bartlett, the two-sample
  t-test, Mann-Whitney U, one-sample t-test, Wilcoxon signed-rank) are
  external collaborators per the spec; they are modelled as an abstract
  `Primitives` record of functions returning a p-value, and the cascade is
  parameterised over it.
* Each call to a primitive is recorded in a trace (`List PrimCall`) so that
  claims of the form "diagnostic X is (not) run on this path" are statable.
* Python locals that may be unbound (`homoscedasticity`, `p`, `sigTest`) are
  modelled as `Option`; reading an unbound local yields
  `CascadeError.unboundLocal`, mirroring Python's `UnboundLocalError`.
  Python's short-circuit `and` is modelled by `pyAnd` / `pyAndNot`, which
  read the right operand only when the left one is `True`.
* `raise Exception('Unable to perform paired tests, unequal sample sizes.')`
  becomes `CascadeError.invalidInput` with the same message.
* `diff = sample1 - sample2` is numpy element-wise subtraction of two
  equal-length arrays, i.e. `List.zipWith (· - ·)`.
-/

/-- The external statistical test primitives consumed by the cascade
(scipy.stats functions); each takes the sample(s) and returns a p-value. -/
structure Primitives where
  shapiro : List ℚ → ℚ
  bartlett : List ℚ → List ℚ → ℚ
  ttest_ind : List ℚ → List ℚ → Bool → ℚ
  mannwhitneyu : List ℚ → List ℚ → ℚ
  ttest_1samp : List ℚ → ℚ → ℚ
  wilcoxon : List ℚ → ℚ

/-- One recorded invocation of an external statistical primitive. -/
inductive PrimCall where
  | shapiro : List ℚ → PrimCall
  | bartlett : List ℚ → List ℚ → PrimCall
  | ttest_ind : List ℚ → List ℚ → Bool → PrimCall
  | mannwhitneyu : List ℚ → List ℚ → PrimCall
  | ttest_1samp : List ℚ → ℚ → PrimCall
  | wilcoxon : List ℚ → PrimCall
deriving DecidableEq, Repr

/-- Errors the embedded cascade can signal: the explicit `raise` for a
paired length mismatch, and Python's `UnboundLocalError` for reading a
never-assigned local variable. -/
inductive CascadeError where
  | invalidInput : String → CascadeError
  | unboundLocal : String → CascadeError
deriving DecidableEq, Repr

/-- Reading a Python local that may never have been assigned. -/
def readLocal (name : String) : Option α → Except CascadeError α
  | some v => .ok v
  | none => .error (.unboundLocal name)

/-- Python's short-circuit `b and x` where `x` is a possibly-unbound local:
`x` is read only when `b` is `True`. -/
def pyAnd (b : Bool) (x : Option Bool) (name : String) :
    Except CascadeError Bool :=
  if b then readLocal name x else .ok false

/-- Python's short-circuit `b and (not x)` where `x` is a possibly-unbound
local: `x` is read only when `b` is `True`. -/
def pyAndNot (b : Bool) (x : Option Bool) (name : String) :
    Except CascadeError Bool :=
  if b then (readLocal name x).map (fun h => !h) else .ok false

/-- Embedding of `testingCcascade(sample1, sample2, alpha, paired)`.
Returns the `[p, sigTest]` result (or the raised error) together with the
trace of primitive invocations, in call order. -/
def testingCcascade (prims : Primitives) (sample1 sample2 : List ℚ)
    (alpha : ℚ) (paired : Bool) :
    Except CascadeError (ℚ × String) × List PrimCall :=
  if !paired then
    -- 1) Shapiro-Wilk test on each sample
    let p1 := prims.shapiro sample1
    let p2 := prims.shapiro sample2
    let trace := [PrimCall.shapiro sample1, PrimCall.shapiro sample2]
    -- if (p1 > alpha) and (p2 > alpha): normality = True else False
    let normality : Bool := decide (p1 > alpha) && decide (p2 > alpha)
    -- 2) Bartlett test, run only when normality
    let s2_ : Option ℚ × Option Bool × List PrimCall :=
      if normality then
        let pb := prims.bartlett sample1 sample2
        (some pb, some (if pb < alpha then false else true),
          trace ++ [PrimCall.bartlett sample1 sample2])
      else (none, none, trace)
    let p := s2_.1
    let homoscedasticity := s2_.2.1
    let trace := s2_.2.2
    -- 3.a) if normality and homoscedasticity: t-test
    match pyAnd normality homoscedasticity "homoscedasticity" with
    | .error e => (.error e, trace)
    | .ok condA =>
      let sA : Option String × Option ℚ × List PrimCall :=
        if condA then
          (some "t-test", some (prims.ttest_ind sample1 sample2 true),
            trace ++ [PrimCall.ttest_ind sample1 sample2 true])
        else (none, p, trace)
      let sigTest := sA.1
      let p := sA.2.1
      let trace := sA.2.2
      -- 3.b) if normality and (not homoscedasticity): Welch test
      match pyAndNot normality homoscedasticity "homoscedasticity" with
      | .error e => (.error e, trace)
      | .ok condB =>
        let sB : Option String × Option ℚ × List PrimCall :=
          if condB then
            (some "Welch-test", some (prims.ttest_ind sample1 sample2 false),
              trace ++ [PrimCall.ttest_ind sample1 sample2 false])
          else (sigTest, p, trace)
        let sigTest := sB.1
        let p := sB.2.1
        let trace := sB.2.2
        -- 3.c) if not normality: U test
        let sC : Option String × Option ℚ × List PrimCall :=
          if !normality then
            (some "U-test", some (prims.mannwhitneyu sample1 sample2),
              trace ++ [PrimCall.mannwhitneyu sample1 sample2])
          else (sigTest, p, trace)
        -- return [p, sigTest]
        match readLocal "p" sC.2.1, readLocal "sigTest" sC.1 with
        | .ok pv, .ok name => (.ok (pv, name), sC.2.2)
        | .error e, _ => (.error e, sC.2.2)
        | .ok _, .error e => (.error e, sC.2.2)
  else
    -- Paired samples
    if sample1.length ≠ sample2.length then
      (.error (.invalidInput
        "Unable to perform paired tests, unequal sample sizes."), [])
    else
      -- diff = sample1 - sample2 (numpy element-wise subtraction)
      let diff := List.zipWith (fun a b => a - b) sample1 sample2
      -- 1) Shapiro-Wilk test on the pair-differences
      let p := prims.shapiro diff
      let trace := [PrimCall.shapiro diff]
      -- if p < alpha: normality = False else True
      let normality : Bool := if p < alpha then false else true
      -- 2.a) if normality: paired t-test of diff against 0
      let sA : Option String × ℚ × List PrimCall :=
        if normality then
          (some "Paired t-test", prims.ttest_1samp diff 0,
            trace ++ [PrimCall.ttest_1samp diff 0])
        else (none, p, trace)
      -- 2.b) if not normality: Wilcoxon test on diff
      let sB : Option String × ℚ × List PrimCall :=
        if !normality then
          (some "Wilcoxon test", prims.wilcoxon diff,
            sA.2.2 ++ [PrimCall.wilcoxon diff])
        else sA
      -- return [p, sigTest]
      match readLocal "sigTest" sB.1 with
      | .ok name => (.ok (sB.2.1, name), sB.2.2)
      | .error e => (.error e, sB.2.2)

deriving instance DecidableEq for Except

/-- Concrete deterministic primitives used by witnesses and
counterexamples: each primitive ignores its sample arguments and returns a
fixed, pairwise distinct p-value, so the selected branch is identifiable
from the returned p-value. -/
def cPrims : Primitives where
  shapiro _ := mkRat 1 10
  bartlett _ _ := mkRat 1 4
  ttest_ind _ _ ev := if ev then mkRat 3 10 else mkRat 7 20
  mannwhitneyu _ _ := mkRat 2 5
  ttest_1samp _ _ := mkRat 9 20
  wilcoxon _ := mkRat 1 2

section Helpers

theorem not_paired_normal_homo (prims : Primitives) (s1 s2 : List ℚ) (alpha : ℚ)
    (h1 : prims.shapiro s1 > alpha) (h2 : prims.shapiro s2 > alpha)
    (hb : ¬prims.bartlett s1 s2 < alpha) :
    testingCcascade prims s1 s2 alpha false =
      (.ok (prims.ttest_ind s1 s2 true, "t-test"),
       [.shapiro s1, .shapiro s2, .bartlett s1 s2, .ttest_ind s1 s2 true]) := by
  simp [testingCcascade, h1, h2, hb, pyAnd, pyAndNot, readLocal, Except.map]

theorem not_paired_normal_hetero (prims : Primitives) (s1 s2 : List ℚ) (alpha : ℚ)
    (h1 : prims.shapiro s1 > alpha) (h2 : prims.shapiro s2 > alpha)
    (hb : prims.bartlett s1 s2 < alpha) :
    testingCcascade prims s1 s2 alpha false =
      (.ok (prims.ttest_ind s1 s2 false, "Welch-test"),
       [.shapiro s1, .shapiro s2, .bartlett s1 s2, .ttest_ind s1 s2 false]) := by
  simp [testingCcascade, h1, h2, hb, pyAnd, pyAndNot, readLocal, Except.map]

theorem not_paired_nonnormal (prims : Primitives) (s1 s2 : List ℚ) (alpha : ℚ)
    (h : ¬(prims.shapiro s1 > alpha ∧ prims.shapiro s2 > alpha)) :
    testingCcascade prims s1 s2 alpha false =
      (.ok (prims.mannwhitneyu s1 s2, "U-test"),
       [.shapiro s1, .shapiro s2, .mannwhitneyu s1 s2]) := by
  have hn : (decide (prims.shapiro s1 > alpha) && decide (prims.shapiro s2 > alpha)) = false := by
    rcases not_and_or.mp h with h' | h' <;> simp [h']
  simp [testingCcascade, hn, pyAnd, pyAndNot, readLocal]

theorem paired_mismatch (prims : Primitives) (s1 s2 : List ℚ) (alpha : ℚ)
    (h : s1.length ≠ s2.length) :
    testingCcascade prims s1 s2 alpha true =
      (.error (.invalidInput "Unable to perform paired tests, unequal sample sizes."), []) := by
  simp [testingCcascade, h]

theorem paired_normal (prims : Primitives) (s1 s2 : List ℚ) (alpha : ℚ)
    (hlen : s1.length = s2.length)
    (hn : ¬prims.shapiro (List.zipWith (fun a b => a - b) s1 s2) < alpha) :
    testingCcascade prims s1 s2 alpha true =
      (.ok (prims.ttest_1samp (List.zipWith (fun a b => a - b) s1 s2) 0, "Paired t-test"),
       [.shapiro (List.zipWith (fun a b => a - b) s1 s2),
        .ttest_1samp (List.zipWith (fun a b => a - b) s1 s2) 0]) := by
  simp [testingCcascade, hlen, hn, readLocal]

theorem paired_nonnormal (prims : Primitives) (s1 s2 : List ℚ) (alpha : ℚ)
    (hlen : s1.length = s2.length)
    (hn : prims.shapiro (List.zipWith (fun a b => a - b) s1 s2) < alpha) :
    testingCcascade prims s1 s2 alpha true =
      (.ok (prims.wilcoxon (List.zipWith (fun a b => a - b) s1 s2), "Wilcoxon test"),
       [.shapiro (List.zipWith (fun a b => a - b) s1 s2),
        .wilcoxon (List.zipWith (fun a b => a - b) s1 s2)]) := by
  simp [testingCcascade, hlen, hn, readLocal]

end Helpers

theorem testingCcascade_total (prims : Primitives) (s1 s2 : List ℚ) (alpha : ℚ)
    (paired : Bool) (hok : paired = true → s1.length = s2.length) :
    ∃ r, (testingCcascade prims s1 s2 alpha paired).1 = .ok r := by
  cases paired with
  | false =>
    by_cases h1 : prims.shapiro s1 > alpha
    · by_cases h2 : prims.shapiro s2 > alpha
      · by_cases hb : prims.bartlett s1 s2 < alpha
        · exact ⟨_, by rw [not_paired_normal_hetero prims s1 s2 alpha h1 h2 hb]⟩
        · exact ⟨_, by rw [not_paired_normal_homo prims s1 s2 alpha h1 h2 hb]⟩
      · exact ⟨_, by rw [not_paired_nonnormal prims s1 s2 alpha (by tauto)]⟩
    · exact ⟨_, by rw [not_paired_nonnormal prims s1 s2 alpha (by tauto)]⟩
  | true =>
    have hlen := hok rfl
    by_cases hn : prims.shapiro (List.zipWith (fun a b => a - b) s1 s2) < alpha
    · exact ⟨_, by rw [paired_nonnormal prims s1 s2 alpha hlen hn]⟩
    · exact ⟨_, by rw [paired_normal prims s1 s2 alpha hlen hn]⟩

/-- C1, counterexample: with primitives whose Shapiro-Wilk p-value on both
samples is exactly `alpha` (here `1/10`), the code classifies the pair as
NON-normal (line 36 uses the strict comparison `p1 > alpha and p2 > alpha`)
and selects the U-test — refuting the claim that the pair is classified
normal and the U-test is never selected in this situation. -/
theorem c1_boundary_counterexample :
    cPrims.shapiro [1, 2, 3] = mkRat 1 10 ∧
    cPrims.shapiro [4, 5, 6] = mkRat 1 10 ∧
    (testingCcascade cPrims [1, 2, 3] [4, 5, 6] (mkRat 1 10) false).1 =
      .ok (mkRat 2 5, "U-test") :=
  ⟨rfl, rfl, by decide⟩

/-- C1, amended: for every unpaired call in which both Shapiro-Wilk
normality p-values are exactly equal to `alpha`, the pair is classified
NON-normal (normality requires both p-values to be strictly greater than
`alpha`), so the selected final test is the Mann-Whitney U-test. -/
theorem c1_amended_boundary_selects_utest (prims : Primitives)
    (s1 s2 : List ℚ) (alpha : ℚ)
    (h1 : prims.shapiro s1 = alpha) (h2 : prims.shapiro s2 = alpha) :
    (testingCcascade prims s1 s2 alpha false).1 =
      .ok (prims.mannwhitneyu s1 s2, "U-test") := by
  rw [not_paired_nonnormal prims s1 s2 alpha (by rw [h1]; simp)]

/-- Witness for the amended C1 at concrete inputs. -/
theorem c1_amended_witness :
    (testingCcascade cPrims [1] [2] (mkRat 1 10) false).1 =
      .ok (cPrims.mannwhitneyu [1] [2], "U-test") :=
  c1_amended_boundary_selects_utest cPrims [1] [2] (mkRat 1 10) rfl rfl

/-- C2: every call that returns a result returns exactly one test name,
drawn from the fixed enumeration of the chosen mode: one of
t-test / Welch-test / U-test when `paired` is `false`, and one of
Paired t-test / Wilcoxon test when `paired` is `true`. -/
theorem c2_name_in_enumeration (prims : Primitives) (s1 s2 : List ℚ)
    (alpha : ℚ) (paired : Bool) (pv : ℚ) (name : String)
    (h : (testingCcascade prims s1 s2 alpha paired).1 = .ok (pv, name)) :
    (paired = false →
      name = "t-test" ∨ name = "Welch-test" ∨ name = "U-test") ∧
    (paired = true →
      name = "Paired t-test" ∨ name = "Wilcoxon test") := by
  cases paired with
  | false =>
    refine ⟨fun _ => ?_, fun hco => nomatch hco⟩
    by_cases h1 : prims.shapiro s1 > alpha
    · by_cases h2 : prims.shapiro s2 > alpha
      · by_cases hb : prims.bartlett s1 s2 < alpha
        · rw [not_paired_normal_hetero prims s1 s2 alpha h1 h2 hb] at h
          simp only [Except.ok.injEq, Prod.mk.injEq] at h
          exact Or.inr (Or.inl h.2.symm)
        · rw [not_paired_normal_homo prims s1 s2 alpha h1 h2 hb] at h
          simp only [Except.ok.injEq, Prod.mk.injEq] at h
          exact Or.inl h.2.symm
      · rw [not_paired_nonnormal prims s1 s2 alpha (by tauto)] at h
        simp only [Except.ok.injEq, Prod.mk.injEq] at h
        exact Or.inr (Or.inr h.2.symm)
    · rw [not_paired_nonnormal prims s1 s2 alpha (by tauto)] at h
      simp only [Except.ok.injEq, Prod.mk.injEq] at h
      exact Or.inr (Or.inr h.2.symm)
  | true =>
    refine ⟨fun hco => (nomatch hco), fun _ => ?_⟩
    by_cases hlen : s1.length = s2.length
    · by_cases hn : prims.shapiro (List.zipWith (fun a b => a - b) s1 s2) < alpha
      · rw [paired_nonnormal prims s1 s2 alpha hlen hn] at h
        simp only [Except.ok.injEq, Prod.mk.injEq] at h
        exact Or.inr h.2.symm
      · rw [paired_normal prims s1 s2 alpha hlen hn] at h
        simp only [Except.ok.injEq, Prod.mk.injEq] at h
        exact Or.inl h.2.symm
    · rw [paired_mismatch prims s1 s2 alpha hlen] at h
      cases h

/-- Witness for C2 at a concrete unpaired call that selects the t-test. -/
theorem c2_witness :
    "t-test" = "t-test" ∨ "t-test" = "Welch-test" ∨ "t-test" = "U-test" :=
  (c2_name_in_enumeration cPrims [1] [2] (mkRat 1 20) false (mkRat 3 10)
    "t-test" (by decide)).1 rfl

/-- C3: the cascade raises its length-mismatch error (with the exact
message of line 76) if and only if `paired` is `true` and the lengths
differ; in that case the primitive-call trace is empty (the error precedes
every statistical primitive and the difference computation); in every other
case the cascade rejects nothing and returns a result. -/
theorem c3_invalid_input_characterization (prims : Primitives)
    (s1 s2 : List ℚ) (alpha : ℚ) (paired : Bool) :
    ((testingCcascade prims s1 s2 alpha paired).1 =
        .error (.invalidInput
          "Unable to perform paired tests, unequal sample sizes.") ↔
      paired = true ∧ s1.length ≠ s2.length) ∧
    (paired = true ∧ s1.length ≠ s2.length →
      (testingCcascade prims s1 s2 alpha paired).2 = []) ∧
    (¬(paired = true ∧ s1.length ≠ s2.length) →
      ∃ r, (testingCcascade prims s1 s2 alpha paired).1 = .ok r) := by
  have hneg : ¬(paired = true ∧ s1.length ≠ s2.length) →
      ∃ r, (testingCcascade prims s1 s2 alpha paired).1 = .ok r := by
    intro hcon
    push_neg at hcon
    exact testingCcascade_total prims s1 s2 alpha paired hcon
  refine ⟨⟨fun herr => ?_, fun hyes => ?_⟩, fun hyes => ?_, hneg⟩
  · by_contra hcon
    obtain ⟨r, hr⟩ := hneg hcon
    rw [hr] at herr
    cases herr
  · obtain ⟨hp, hlen⟩ := hyes
    subst hp
    rw [paired_mismatch prims s1 s2 alpha hlen]
  · obtain ⟨hp, hlen⟩ := hyes
    subst hp
    rw [paired_mismatch prims s1 s2 alpha hlen]

/-- Witness for C3 at a concrete paired call with mismatched lengths. -/
theorem c3_witness :
    (testingCcascade cPrims [1] [1, 2] (mkRat 1 20) true).1 =
      .error (.invalidInput
        "Unable to perform paired tests, unequal sample sizes.") :=
  (c3_invalid_input_characterization cPrims [1] [1, 2]
    (mkRat 1 20) true).1.mpr ⟨rfl, by decide⟩

/-- C4: in an unpaired call in which both samples are classified normal
(both Shapiro-Wilk p-values strictly above `alpha`), Bartlett is run; if
its p-value is at least `alpha` the result is the equal-variance t-test
p-value labelled t-test, and if it is strictly below `alpha` the result is
the Welch (unequal-variance) t-test p-value labelled Welch-test. -/
theorem c4_normal_homoscedasticity_branch (prims : Primitives)
    (s1 s2 : List ℚ) (alpha : ℚ)
    (h1 : prims.shapiro s1 > alpha) (h2 : prims.shapiro s2 > alpha) :
    PrimCall.bartlett s1 s2 ∈ (testingCcascade prims s1 s2 alpha false).2 ∧
    (prims.bartlett s1 s2 ≥ alpha →
      (testingCcascade prims s1 s2 alpha false).1 =
        .ok (prims.ttest_ind s1 s2 true, "t-test")) ∧
    (prims.bartlett s1 s2 < alpha →
      (testingCcascade prims s1 s2 alpha false).1 =
        .ok (prims.ttest_ind s1 s2 false, "Welch-test")) := by
  by_cases hb : prims.bartlett s1 s2 < alpha
  · rw [not_paired_normal_hetero prims s1 s2 alpha h1 h2 hb]
    exact ⟨by simp, fun hge => absurd hb (not_lt.mpr hge), fun _ => rfl⟩
  · rw [not_paired_normal_homo prims s1 s2 alpha h1 h2 hb]
    exact ⟨by simp, fun _ => rfl, fun hlt => absurd hlt hb⟩

/-- Witness for C4 at a concrete call selecting the t-test. -/
theorem c4_witness :
    (testingCcascade cPrims [1] [2] (mkRat 1 40) false).1 =
      .ok (cPrims.ttest_ind [1] [2] true, "t-test") :=
  (c4_normal_homoscedasticity_branch cPrims [1] [2] (mkRat 1 40)
    (by decide) (by decide)).2.1 (by decide)

/-- C5: in an unpaired call in which at least one Shapiro-Wilk p-value
fails the strict normality threshold, the result is the Mann-Whitney
U-test p-value labelled U-test, and no Bartlett call appears in the
primitive trace, on any arguments. -/
theorem c5_nonnormal_utest_branch (prims : Primitives)
    (s1 s2 : List ℚ) (alpha : ℚ)
    (h : ¬(prims.shapiro s1 > alpha ∧ prims.shapiro s2 > alpha)) :
    (testingCcascade prims s1 s2 alpha false).1 =
      .ok (prims.mannwhitneyu s1 s2, "U-test") ∧
    ∀ a b : List ℚ,
      PrimCall.bartlett a b ∉ (testingCcascade prims s1 s2 alpha false).2 := by
  rw [not_paired_nonnormal prims s1 s2 alpha h]
  exact ⟨rfl, fun a b => by simp⟩

/-- Witness for C5 at a concrete call with a failing normality p-value. -/
theorem c5_witness :
    (testingCcascade cPrims [1] [2] (mkRat 1 2) false).1 =
      .ok (cPrims.mannwhitneyu [1] [2], "U-test") :=
  (c5_nonnormal_utest_branch cPrims [1] [2] (mkRat 1 2) (by decide)).1

/-- C6: in a paired call with equal-length samples, Shapiro-Wilk is run on
the difference sequence; a p-value at least `alpha` selects the one-sample
t-test of the differences against mean 0 labelled Paired t-test, and a
p-value strictly below `alpha` selects the Wilcoxon signed-rank test on
the differences labelled Wilcoxon test. -/
theorem c6_paired_branch_selection (prims : Primitives)
    (s1 s2 : List ℚ) (alpha : ℚ) (hlen : s1.length = s2.length) :
    PrimCall.shapiro (List.zipWith (fun a b => a - b) s1 s2) ∈
      (testingCcascade prims s1 s2 alpha true).2 ∧
    (prims.shapiro (List.zipWith (fun a b => a - b) s1 s2) ≥ alpha →
      (testingCcascade prims s1 s2 alpha true).1 =
        .ok (prims.ttest_1samp (List.zipWith (fun a b => a - b) s1 s2) 0,
          "Paired t-test")) ∧
    (prims.shapiro (List.zipWith (fun a b => a - b) s1 s2) < alpha →
      (testingCcascade prims s1 s2 alpha true).1 =
        .ok (prims.wilcoxon (List.zipWith (fun a b => a - b) s1 s2),
          "Wilcoxon test")) := by
  by_cases hn : prims.shapiro (List.zipWith (fun a b => a - b) s1 s2) < alpha
  · rw [paired_nonnormal prims s1 s2 alpha hlen hn]
    exact ⟨by simp, fun hge => absurd hn (not_lt.mpr hge), fun _ => rfl⟩
  · rw [paired_normal prims s1 s2 alpha hlen hn]
    exact ⟨by simp, fun _ => rfl, fun hlt => absurd hlt hn⟩

/-- Witness for C6 at a concrete call selecting the Paired t-test. -/
theorem c6_witness :
    (testingCcascade cPrims [1, 2] [3, 4] (mkRat 1 20) true).1 =
      .ok (cPrims.ttest_1samp (List.zipWith (fun a b => a - b) [1, 2] [3, 4]) 0,
        "Paired t-test") :=
  (c6_paired_branch_selection cPrims [1, 2] [3, 4] (mkRat 1 20) rfl).2.1
    (by decide)

/-- C7: in a paired call with equal-length samples, the sequence handed to
the diagnostic and final tests is the element-wise difference: the first
primitive call is Shapiro-Wilk on `diff`, `diff` has the common length,
`diff[i] = sample1[i] - sample2[i]` at every index, and every primitive
call in the trace receives `diff`. -/
theorem c7_diff_elementwise (prims : Primitives) (s1 s2 : List ℚ)
    (alpha : ℚ) (hlen : s1.length = s2.length) :
    (testingCcascade prims s1 s2 alpha true).2.head? =
      some (PrimCall.shapiro (List.zipWith (fun a b => a - b) s1 s2)) ∧
    (List.zipWith (fun a b => a - b) s1 s2).length = s1.length ∧
    (∀ i, i < s1.length →
      ∃ a b, s1[i]? = some a ∧ s2[i]? = some b ∧
        (List.zipWith (fun a b => a - b) s1 s2)[i]? = some (a - b)) ∧
    (∀ c ∈ (testingCcascade prims s1 s2 alpha true).2,
      c = PrimCall.shapiro (List.zipWith (fun a b => a - b) s1 s2) ∨
      c = PrimCall.ttest_1samp (List.zipWith (fun a b => a - b) s1 s2) 0 ∨
      c = PrimCall.wilcoxon (List.zipWith (fun a b => a - b) s1 s2)) := by
  have hget : ∀ i, i < s1.length →
      ∃ a b, s1[i]? = some a ∧ s2[i]? = some b ∧
        (List.zipWith (fun a b => a - b) s1 s2)[i]? = some (a - b) := by
    intro i hi
    have hi2 : i < s2.length := hlen ▸ hi
    refine ⟨s1[i], s2[i], by simp [hi], by simp [hi2], ?_⟩
    simp [List.getElem?_zipWith', List.getElem?_eq_getElem hi,
      List.getElem?_eq_getElem hi2]
  have hlenz : (List.zipWith (fun a b => a - b) s1 s2).length = s1.length := by
    simp [List.length_zipWith, hlen]
  by_cases hn : prims.shapiro (List.zipWith (fun a b => a - b) s1 s2) < alpha
  · rw [paired_nonnormal prims s1 s2 alpha hlen hn]
    refine ⟨rfl, hlenz, hget, ?_⟩
    intro c hc
    simp only [List.mem_cons, List.not_mem_nil, or_false] at hc
    tauto
  · rw [paired_normal prims s1 s2 alpha hlen hn]
    refine ⟨rfl, hlenz, hget, ?_⟩
    intro c hc
    simp only [List.mem_cons, List.not_mem_nil, or_false] at hc
    tauto

/-- Witness for C7 at index 0 of a concrete paired call. -/
theorem c7_witness :
    ∃ a b, ([(1 : ℚ), 2][0]? = some a) ∧ ([(3 : ℚ), 4][0]? = some b) ∧
      (List.zipWith (fun a b => a - b) [(1 : ℚ), 2] [3, 4])[0]? =
        some (a - b) :=
  (c7_diff_elementwise cPrims [1, 2] [3, 4] (mkRat 1 20) rfl).2.2.1 0
    (by decide)

/-- C8: the cascade is deterministic: two calls with identical sample
contents, significance level and pairing flag, over the same (pure)
primitives, return identical (p-value, test-name) results and traces. -/
theorem c8_deterministic (prims : Primitives) (s1 s2 t1 t2 : List ℚ)
    (alpha beta : ℚ) (b c : Bool)
    (hs1 : s1 = t1) (hs2 : s2 = t2) (ha : alpha = beta) (hb : b = c) :
    testingCcascade prims s1 s2 alpha b = testingCcascade prims t1 t2 beta c := by
  rw [hs1, hs2, ha, hb]

/-- Witness for C8 at concrete equal inputs. -/
theorem c8_witness :
    testingCcascade cPrims [1] [2] (mkRat 1 20) false =
      testingCcascade cPrims [1] [2] (mkRat 1 20) false :=
  c8_deterministic cPrims [1] [2] [1] [2] (mkRat 1 20) (mkRat 1 20)
    false false rfl rfl rfl rfl

/-- C9: no unpaired execution path reads an unassigned local: every
unpaired call returns an ok (p-value, name) pair, and in particular never
the `unboundLocal` error that would model Python's UnboundLocalError for
the conditionally-assigned `homoscedasticity`, `p` and `sigTest` locals. -/
theorem c9_unpaired_never_unbound (prims : Primitives) (s1 s2 : List ℚ)
    (alpha : ℚ) :
    (∃ r, (testingCcascade prims s1 s2 alpha false).1 = .ok r) ∧
    ∀ v, (testingCcascade prims s1 s2 alpha false).1 ≠
      .error (.unboundLocal v) := by
  obtain ⟨r, hr⟩ := testingCcascade_total prims s1 s2 alpha false (by simp)
  exact ⟨⟨r, hr⟩, fun v h => by rw [hr] at h; cases h⟩

/-- C10: unpaired mode performs no length check: any two non-empty samples,
of equal or different lengths, produce an ok result, and the
length-mismatch error is impossible when `paired` is `false`. -/
theorem c10_unpaired_ignores_lengths (prims : Primitives) (s1 s2 : List ℚ)
    (alpha : ℚ) (h1 : s1 ≠ []) (h2 : s2 ≠ []) :
    (∃ r, (testingCcascade prims s1 s2 alpha false).1 = .ok r) ∧
    ∀ msg, (testingCcascade prims s1 s2 alpha false).1 ≠
      .error (.invalidInput msg) := by
  obtain ⟨r, hr⟩ := testingCcascade_total prims s1 s2 alpha false (by simp)
  exact ⟨⟨r, hr⟩, fun msg h => by rw [hr] at h; cases h⟩

/-- Witness for C10 at concrete samples of different lengths. -/
theorem c10_witness :
    ∃ r, (testingCcascade cPrims [1] [2, 3] (mkRat 1 20) false).1 = .ok r :=
  (c10_unpaired_ignores_lengths cPrims [1] [2, 3] (mkRat 1 20)
    (by decide) (by decide)).1
